import Mathlib

/-!
Shallow embedding of `src/NQubitALU.py`: reversible-gate programs built from
`HalfAdder`, `FullAdder` and the `NQubitALU` blueprint circuit, together with
proofs of the specification's claims about them.

Wires are natural numbers indexing into a classical basis state (a `List Bool`);
the qiskit primitives used by the source (`cx`, `ccx`, `swap`, `reset`) act on
such states in the standard way on computational basis vectors.
-/

set_option maxRecDepth 10000

namespace ALUModel

/-- Primitive operations appended by the source: `cx` (controlled invert),
`ccx` (doubly-controlled invert), `swap`, and `reset` (to the zero state). -/
inductive Op where
  | cx (c t : Nat)
  | ccx (c1 c2 t : Nat)
  | swap (a b : Nat)
  | reset (t : Nat)
deriving DecidableEq, Repr

/-- A classical basis state of the wire universe: wire `w` holds `st.getD w false`. -/
abbrev QState := List Bool

/-- Value of wire `w` in state `st`. -/
def getW (st : QState) (w : Nat) : Bool := st.getD w false

/-- Action of one primitive operation on a basis state. -/
def applyOp (st : QState) : Op → QState
  | Op.cx c t => st.set t (xor (getW st t) (getW st c))
  | Op.ccx c1 c2 t => st.set t (xor (getW st t) (getW st c1 && getW st c2))
  | Op.swap a b => (st.set a (getW st b)).set b (getW st a)
  | Op.reset t => st.set t false

/-- Execute a sequence of operations in order. -/
def execOps (st : QState) (ops : List Op) : QState := ops.foldl applyOp st

/-- `HalfAdder._define`: wires `(a, b, sum, carry) = (0, 1, 2, 3)`;
`cx 0 2; cx 1 2; ccx 0 1 3`. -/
def halfAdderOps : List Op := [Op.cx 0 2, Op.cx 1 2, Op.ccx 0 1 3]

/-- `FullAdder._define`: wires `(a, b, cin, cout, sum, anc1, anc2, anc3) =
(0, 1, 2, 3, 4, 5, 6, 7)`; the nine `cx`/`ccx` operations of the source. -/
def fullAdderOps : List Op :=
  [Op.cx 0 5, Op.cx 1 5, Op.cx 2 4, Op.cx 5 4, Op.ccx 0 1 6, Op.ccx 2 5 7,
   Op.cx 7 3, Op.cx 6 3, Op.ccx 7 6 3]

/-- Rename the wires of an operation. -/
def mapOpWires (f : Nat → Nat) : Op → Op
  | Op.cx c t => Op.cx (f c) (f t)
  | Op.ccx c1 c2 t => Op.ccx (f c1) (f c2) (f t)
  | Op.swap a b => Op.swap (f a) (f b)
  | Op.reset t => Op.reset (f t)

/-- Bind a gate definition (over local wires `0, 1, ...`) to concrete wires `qs`. -/
def bindOps (qs : List Nat) (ops : List Op) : List Op :=
  ops.map (mapOpWires (fun i => qs.getD i 0))

/-- Errors that can arise during circuit construction.  `attributeError` is the
`AttributeError` of `NQubitALU._check_configuration`; `circuitError` is the
qiskit `CircuitError` raised on an out-of-range register index;
`configurationError` is the spec's name for a construction-time
configuration failure. -/
inductive BuildError where
  | attributeError
  | circuitError
  | configurationError
deriving DecidableEq, Repr

/-- Modelled from the spec: GateBlock instantiation binds the block's local wire
slots to concrete wires and "fails with ConfigurationError if exactly `arity`
wires are not supplied".  The arity check itself is performed by the external
circuit library when a gate is appended (it is not under `src/`); the arities
4 and 8 come from `HalfAdder.__init__` and `FullAdder.__init__`. -/
def instantiateGate (arity : Nat) (gateOps : List Op) (qs : List Nat) :
    Except BuildError (List Op) :=
  if qs.length = arity then Except.ok (bindOps qs gateOps)
  else Except.error BuildError.configurationError

/-- Appending a gate during `_build`: same binding, but an arity mismatch
surfaces as the external library's `CircuitError`. -/
def appendGate (arity : Nat) (gateOps : List Op) (qs : List Nat) :
    Except BuildError (List Op) :=
  if qs.length = arity then Except.ok (bindOps qs gateOps)
  else Except.error BuildError.circuitError

/-- The six registers handed to `NQubitALU.__init__`, by width. -/
structure ALUConfig where
  wA : Nat
  wB : Nat
  wS : Nat
  wSB : Nat
  wC : Nat
  wAnc : Nat
deriving DecidableEq, Repr

/-- Wire offsets follow `self.qregs = [A, B, S, SB, C, Ancilla]`. -/
def bBase (cfg : ALUConfig) : Nat := cfg.wA

/-- Offset of register S. -/
def sBase (cfg : ALUConfig) : Nat := cfg.wA + cfg.wB

/-- Offset of register SB. -/
def sbBase (cfg : ALUConfig) : Nat := cfg.wA + cfg.wB + cfg.wS

/-- Offset of register C. -/
def cBase (cfg : ALUConfig) : Nat := cfg.wA + cfg.wB + cfg.wS + cfg.wSB

/-- Offset of the ancilla register. -/
def ancBase (cfg : ALUConfig) : Nat := cfg.wA + cfg.wB + cfg.wS + cfg.wSB + cfg.wC

/-- Register indexing `reg[i]`: in range it yields the flat wire number,
out of range qiskit raises `CircuitError`. -/
def regGet (base size i : Nat) : Except BuildError Nat :=
  if i < size then Except.ok (base + i) else Except.error BuildError.circuitError

/-- `registerA[i]`. -/
def getA (cfg : ALUConfig) (i : Nat) : Except BuildError Nat := regGet 0 cfg.wA i

/-- `registerB[i]`. -/
def getB (cfg : ALUConfig) (i : Nat) : Except BuildError Nat := regGet (bBase cfg) cfg.wB i

/-- `registerS[i]`. -/
def getS (cfg : ALUConfig) (i : Nat) : Except BuildError Nat := regGet (sBase cfg) cfg.wS i

/-- `registerSB[i]`. -/
def getSB (cfg : ALUConfig) (i : Nat) : Except BuildError Nat := regGet (sbBase cfg) cfg.wSB i

/-- `registerC[i]`. -/
def getC (cfg : ALUConfig) (i : Nat) : Except BuildError Nat := regGet (cBase cfg) cfg.wC i

/-- `registerAncilla[i]`. -/
def getAnc (cfg : ALUConfig) (i : Nat) : Except BuildError Nat := regGet (ancBase cfg) cfg.wAnc i

/-- Passing the whole register `qr_SB` to `append` flattens it to its qubits. -/
def sbQubits (cfg : ALUConfig) : List Nat :=
  (List.range cfg.wSB).map (fun k => sbBase cfg + k)

/-- `NQubitALU._check_configuration` (lines 238-244): the only check is that
`_num_qubits` has been set; failure raises `AttributeError`. -/
def checkConfiguration (numQubits : Option Nat) : Except BuildError Unit :=
  match numQubits with
  | none => Except.error BuildError.attributeError
  | some _ => Except.ok ()

/-- One construction step of `_build`: either appends a batch of operations or
fails with a build error, aborting the build. -/
abbrev BuildStep := Except BuildError (List Op)

/-- Pair two register lookups into a single appended operation. -/
def step2 (x y : Except BuildError Nat) (f : Nat → Nat → Op) : BuildStep :=
  match x with
  | Except.error e => Except.error e
  | Except.ok a =>
    match y with
    | Except.error e => Except.error e
    | Except.ok b => Except.ok [f a b]

/-- A `self.reset([w]*1)` step. -/
def resetStep (x : Except BuildError Nat) : BuildStep :=
  match x with
  | Except.error e => Except.error e
  | Except.ok w => Except.ok [Op.reset w]

/-- Resolve a list of register lookups left to right, stopping at the first error
(python evaluation order of the qubit-list expression). -/
def resolveAll : List (Except BuildError Nat) → Except BuildError (List Nat)
  | [] => Except.ok []
  | x :: rest =>
    match x with
    | Except.error e => Except.error e
    | Except.ok w =>
      match resolveAll rest with
      | Except.error e => Except.error e
      | Except.ok ws => Except.ok (w :: ws)

/-- Iteration `B_index = i` of the conditional-negate loop (`_build` lines 260-264):
`cx(B[i], anc[0]); cx(SB[0], anc[0]); swap(B[i], anc[0]); reset(anc[0])`. -/
def negIterSteps (cfg : ALUConfig) (i : Nat) : List BuildStep :=
  [step2 (getB cfg i) (getAnc cfg 0) Op.cx,
   step2 (getSB cfg 0) (getAnc cfg 0) Op.cx,
   step2 (getB cfg i) (getAnc cfg 0) Op.swap,
   resetStep (getAnc cfg 0)]

/-- The `FullAdder` append of adder iteration `i` (`_build` lines 266-284).
For `i = 0` the qubit list is `[A[0], B[0], SB, C[0], S[0], anc0, anc1, anc2]`
with the whole `SB` register spliced in; for `i > 0` it is
`[A[i], B[i], C[i-1], C[i], S[i], anc0, anc1, anc2]`. -/
def adderStep (cfg : ALUConfig) (i : Nat) : BuildStep :=
  if i = 0 then
    match resolveAll [getA cfg 0, getB cfg 0, getC cfg 0, getS cfg 0,
        getAnc cfg 0, getAnc cfg 1, getAnc cfg 2] with
    | Except.error e => Except.error e
    | Except.ok ws => appendGate 8 fullAdderOps (ws.take 2 ++ sbQubits cfg ++ ws.drop 2)
  else
    match resolveAll [getA cfg i, getB cfg i, getC cfg (i - 1), getC cfg i, getS cfg i,
        getAnc cfg 0, getAnc cfg 1, getAnc cfg 2] with
    | Except.error e => Except.error e
    | Except.ok ws => appendGate 8 fullAdderOps ws

/-- Adder iteration `i`: the `FullAdder` append followed by the three ancilla resets. -/
def adderIterSteps (cfg : ALUConfig) (i : Nat) : List BuildStep :=
  [adderStep cfg i,
   resetStep (getAnc cfg 0),
   resetStep (getAnc cfg 1),
   resetStep (getAnc cfg 2)]

/-- `super()._build()` runs `_check_configuration`; `_num_qubits` was set to
`registerA.size` in `__init__`, so it is never `None`. -/
def checkStep (cfg : ALUConfig) : BuildStep :=
  match checkConfiguration (some cfg.wA) with
  | Except.error e => Except.error e
  | Except.ok _ => Except.ok []

/-- The full step sequence of `NQubitALU._build`: configuration check, the
conditional-negate loop over `B`, then the adder loop over `A`. -/
def buildSteps (cfg : ALUConfig) : List BuildStep :=
  checkStep cfg ::
    ((List.range cfg.wB).flatMap (negIterSteps cfg) ++
     (List.range cfg.wA).flatMap (adderIterSteps cfg))

/-- Run construction steps in order: operations append until the first error,
which aborts the remainder; everything appended so far stays appended. -/
def runSteps : List BuildStep → List Op × Option BuildError
  | [] => ([], none)
  | Except.error e :: _ => ([], some e)
  | Except.ok ops :: rest =>
    ((ops ++ (runSteps rest).1), (runSteps rest).2)

/-- Result of `NQubitALU._build`: the appended operations and the error that
aborted the build, if any. -/
def buildResult (cfg : ALUConfig) : List Op × Option BuildError :=
  runSteps (buildSteps cfg)

/-- Result of running just the conditional-negate stage of `_build`. -/
def negStageResult (cfg : ALUConfig) : List Op × Option BuildError :=
  runSteps ((List.range cfg.wB).flatMap (negIterSteps cfg))

/-- The standard register layout of the worked example: `A`, `B`, `S`, `C` of
width `N`, `SB` of width 1, ancilla of width 3. -/
def stdCfg (N : Nat) : ALUConfig := ⟨N, N, N, 1, N, 3⟩

/-- Majority vote of three bits. -/
def majority (a b c : Bool) : Bool := (a && b) || (a && c) || (b && c)

/-- Does `op` write (invert, swap or reset) wire `w`?  A wire used only as a
control is never written. -/
def opWrites : Op → Nat → Bool
  | Op.cx _ t, w => w == t
  | Op.ccx _ _ t, w => w == t
  | Op.swap a b, w => w == a || w == b
  | Op.reset t, w => w == t

/-- Is `op` a reset operation? -/
def opIsReset : Op → Bool
  | Op.reset _ => true
  | _ => false

/-- One conditional-negate iteration after wire resolution. -/
def negChunk (bw sb anc0 : Nat) : List Op :=
  [Op.cx bw anc0, Op.cx sb anc0, Op.swap bw anc0, Op.reset anc0]

/-- The conditional-negate stage over a list of resolved B wires. -/
def negStageFor (bs : List Nat) (sb anc0 : Nat) : List Op :=
  bs.flatMap (fun bw => negChunk bw sb anc0)

/-- The operations of the conditional-negate stage in the standard layout:
B wires are `N..2N-1`, `SB` is wire `3N`, and ancilla 0 is wire `4N+1`. -/
def stdNegOps (N : Nat) : List Op :=
  negStageFor ((List.range N).map (fun i => N + i)) (3*N) (4*N+1)

/-- The resolved qubit list of adder stage `i` in the standard layout:
`[A[i], B[i], cin, C[i], S[i], anc0, anc1, anc2]` where the carry-in is the
`SB` wire for stage 0 and `C[i-1]` otherwise. -/
def stdAdderQubits (N i : Nat) : List Nat :=
  [i, N+i, if i = 0 then 3*N else 3*N+i, 3*N+1+i, 2*N+i, 4*N+1, 4*N+2, 4*N+3]

/-- Operations appended by adder stage `i` in the standard layout: the bound
`FullAdder` followed by the three ancilla resets. -/
def stdAdderChunk (N i : Nat) : List Op :=
  bindOps (stdAdderQubits N i) fullAdderOps ++
    [Op.reset (4*N+1), Op.reset (4*N+2), Op.reset (4*N+3)]

/-- All operations appended by `_build` for the standard layout of width `N`. -/
def stdBuildOps (N : Nat) : List Op :=
  stdNegOps N ++ (List.range N).flatMap (stdAdderChunk N)

/-- A register layout whose ancilla register has width 2 instead of 3, with
`A`, `B`, `S`, `C` of width `N` and `SB` of width 1. -/
def badAncCfg (N : Nat) : ALUConfig := ⟨N, N, N, 1, N, 2⟩

lemma stdCfg_wA (N : Nat) : (stdCfg N).wA = N := rfl

lemma stdCfg_wB (N : Nat) : (stdCfg N).wB = N := rfl

lemma stdCfg_wS (N : Nat) : (stdCfg N).wS = N := rfl

lemma stdCfg_wSB (N : Nat) : (stdCfg N).wSB = 1 := rfl

lemma stdCfg_wC (N : Nat) : (stdCfg N).wC = N := rfl

lemma stdCfg_wAnc (N : Nat) : (stdCfg N).wAnc = 3 := rfl

lemma getW_set_self (st : QState) (t : Nat) (v : Bool) (h : t < st.length) :
    getW (st.set t v) t = v := by
  simp [getW, List.getElem?_set_self h]

lemma getW_set_ne (st : QState) (t w : Nat) (v : Bool) (h : w ≠ t) :
    getW (st.set t v) w = getW st w := by
  simp [getW, List.getElem?_set_ne (Ne.symm h)]

lemma length_applyOp (st : QState) (op : Op) : (applyOp st op).length = st.length := by
  cases op <;> simp [applyOp]

lemma length_execOps (ops : List Op) : ∀ st : QState, (execOps st ops).length = st.length := by
  induction ops with
  | nil => intro st; rfl
  | cons op rest ih =>
    intro st
    show (execOps (applyOp st op) rest).length = st.length
    rw [ih, length_applyOp]

lemma execOps_append (st : QState) (l1 l2 : List Op) :
    execOps st (l1 ++ l2) = execOps (execOps st l1) l2 :=
  List.foldl_append applyOp st l1 l2

lemma applyOp_not_writes (st : QState) (op : Op) (w : Nat) (h : opWrites op w = false) :
    getW (applyOp st op) w = getW st w := by
  cases op with
  | cx c t =>
    have ht : w ≠ t := by simpa [opWrites] using h
    simp [applyOp, getW_set_ne _ _ _ _ ht]
  | ccx c1 c2 t =>
    have ht : w ≠ t := by simpa [opWrites] using h
    simp [applyOp, getW_set_ne _ _ _ _ ht]
  | swap a b =>
    have ht : w ≠ a ∧ w ≠ b := by simpa [opWrites] using h
    simp [applyOp, getW_set_ne _ _ _ _ ht.2, getW_set_ne _ _ _ _ ht.1]
  | reset t =>
    have ht : w ≠ t := by simpa [opWrites] using h
    simp [applyOp, getW_set_ne _ _ _ _ ht]

lemma execOps_not_writes (w : Nat) :
    ∀ (ops : List Op) (st : QState), (∀ op ∈ ops, opWrites op w = false) →
      getW (execOps st ops) w = getW st w := by
  intro ops
  induction ops with
  | nil => intro st _; rfl
  | cons op rest ih =>
    intro st h
    show getW (execOps (applyOp st op) rest) w = getW st w
    rw [ih (applyOp st op) (fun o ho => h o (List.mem_cons_of_mem _ ho)),
      applyOp_not_writes st op w (h op (List.mem_cons_self op rest))]

lemma negChunk_exec (bw sb anc0 : Nat) (st : QState)
    (ha : anc0 < st.length)
    (hba : bw ≠ anc0) (hsa : sb ≠ anc0) (h0 : getW st anc0 = false) :
    execOps st (negChunk bw sb anc0) =
      (st.set bw (xor (getW st bw) (getW st sb))).set anc0 false := by
  have e1 : applyOp st (Op.cx bw anc0) = st.set anc0 (getW st bw) := by
    simp [applyOp, h0]
  have g1a : getW (st.set anc0 (getW st bw)) anc0 = getW st bw :=
    getW_set_self _ _ _ ha
  have g1s : getW (st.set anc0 (getW st bw)) sb = getW st sb :=
    getW_set_ne _ _ _ _ hsa
  have e2 : applyOp (st.set anc0 (getW st bw)) (Op.cx sb anc0) =
      st.set anc0 (xor (getW st bw) (getW st sb)) := by
    simp [applyOp, g1a, g1s, List.set_set]
  have g2a : getW (st.set anc0 (xor (getW st bw) (getW st sb))) anc0 =
      xor (getW st bw) (getW st sb) := getW_set_self _ _ _ ha
  have g2b : getW (st.set anc0 (xor (getW st bw) (getW st sb))) bw = getW st bw :=
    getW_set_ne _ _ _ _ hba
  have e3 : applyOp (st.set anc0 (xor (getW st bw) (getW st sb))) (Op.swap bw anc0) =
      ((st.set anc0 (xor (getW st bw) (getW st sb))).set bw
        (xor (getW st bw) (getW st sb))).set anc0 (getW st bw) := by
    simp [applyOp, g2a, g2b]
  show applyOp (applyOp (applyOp (applyOp st (Op.cx bw anc0)) (Op.cx sb anc0))
      (Op.swap bw anc0)) (Op.reset anc0) = _
  rw [e1, e2, e3]
  show (((st.set anc0 (xor (getW st bw) (getW st sb))).set bw
      (xor (getW st bw) (getW st sb))).set anc0 (getW st bw)).set anc0 false = _
  rw [List.set_set, List.set_comm _ _ _ (Ne.symm hba), List.set_set]

lemma negStageFor_exec (sb anc0 : Nat) :
    ∀ (bs : List Nat) (st : QState),
      (∀ bw ∈ bs, bw < st.length ∧ bw ≠ anc0 ∧ bw ≠ sb) →
      bs.Nodup → anc0 < st.length → sb ≠ anc0 → getW st anc0 = false →
      (execOps st (negStageFor bs sb anc0)).length = st.length ∧
      (∀ w, w ∉ bs → w ≠ anc0 →
        getW (execOps st (negStageFor bs sb anc0)) w = getW st w) ∧
      (∀ bw ∈ bs, getW (execOps st (negStageFor bs sb anc0)) bw =
        xor (getW st bw) (getW st sb)) ∧
      getW (execOps st (negStageFor bs sb anc0)) anc0 = false := by
  intro bs
  induction bs with
  | nil =>
    intro st _ _ _ _ h0
    exact ⟨rfl, fun w _ _ => rfl, fun bw h => absurd h (List.not_mem_nil bw), h0⟩
  | cons b rest ih =>
    intro st hbs hnd ha hsa h0
    obtain ⟨hbl, hbanc, hbsb⟩ := hbs b (List.mem_cons_self b rest)
    have hrest : ∀ bw ∈ rest, bw < st.length ∧ bw ≠ anc0 ∧ bw ≠ sb :=
      fun bw h => hbs bw (List.mem_cons_of_mem _ h)
    have hbnotin : b ∉ rest := (List.nodup_cons.mp hnd).1
    have hndrest : rest.Nodup := (List.nodup_cons.mp hnd).2
    have hE : execOps st (negChunk b sb anc0) =
        (st.set b (xor (getW st b) (getW st sb))).set anc0 false :=
      negChunk_exec b sb anc0 st ha hbanc hsa h0
    have hlen1 : (execOps st (negChunk b sb anc0)).length = st.length := by
      rw [hE]; simp
    have hanc1 : getW (execOps st (negChunk b sb anc0)) anc0 = false := by
      rw [hE]
      exact getW_set_self _ _ _ (by simpa using ha)
    have hframe1 : ∀ w, w ≠ b → w ≠ anc0 →
        getW (execOps st (negChunk b sb anc0)) w = getW st w := by
      intro w hwb hwa
      rw [hE, getW_set_ne _ _ _ _ hwa, getW_set_ne _ _ _ _ hwb]
    have hb1 : getW (execOps st (negChunk b sb anc0)) b =
        xor (getW st b) (getW st sb) := by
      rw [hE, getW_set_ne _ _ _ _ hbanc]
      exact getW_set_self _ _ _ hbl
    have hsb1 : getW (execOps st (negChunk b sb anc0)) sb = getW st sb :=
      hframe1 sb (fun h => hbsb h.symm) hsa
    have hih := ih (execOps st (negChunk b sb anc0))
      (fun bw h => ⟨hlen1 ▸ (hrest bw h).1, (hrest bw h).2.1, (hrest bw h).2.2⟩)
      hndrest (hlen1 ▸ ha) hsa hanc1
    have hsplit : execOps st (negStageFor (b :: rest) sb anc0) =
        execOps (execOps st (negChunk b sb anc0)) (negStageFor rest sb anc0) := by
      unfold negStageFor
      rw [List.flatMap_cons]
      exact execOps_append _ _ _
    refine ⟨?_, ?_, ?_, ?_⟩
    · rw [hsplit, hih.1, hlen1]
    · intro w hw hwa
      have hwb : w ≠ b := fun h => hw (by rw [h]; exact List.mem_cons_self b rest)
      have hwrest : w ∉ rest := fun h => hw (List.mem_cons_of_mem _ h)
      rw [hsplit, hih.2.1 w hwrest hwa, hframe1 w hwb hwa]
    · intro bw hbw
      rcases List.mem_cons.mp hbw with h | h
      · subst h
        rw [hsplit, hih.2.1 bw hbnotin hbanc, hb1]
      · rw [hsplit, hih.2.2.1 bw h,
          hframe1 bw (fun hh => hbnotin (hh ▸ h)) (hrest bw h).2.1, hsb1]
    · rw [hsplit, hih.2.2.2]

lemma runSteps_ok_cons (ops : List Op) (rest : List BuildStep) :
    runSteps (Except.ok ops :: rest) = (ops ++ (runSteps rest).1, (runSteps rest).2) := rfl

lemma runSteps_append_ok (l1 l2 : List BuildStep) (h : (runSteps l1).2 = none) :
    runSteps (l1 ++ l2) = ((runSteps l1).1 ++ (runSteps l2).1, (runSteps l2).2) := by
  induction l1 with
  | nil => simp [runSteps]
  | cons s rest ih =>
    cases s with
    | error e => simp [runSteps] at h
    | ok ops =>
      have h' : (runSteps rest).2 = none := by simpa [runSteps] using h
      simp [runSteps, ih h', List.append_assoc]

lemma runSteps_stops_at_error (l : List BuildStep) (e : BuildError) (rest : List BuildStep)
    (h : (runSteps l).2 = none) :
    runSteps (l ++ (Except.error e :: rest)) = ((runSteps l).1, some e) := by
  rw [runSteps_append_ok l _ h]
  simp [runSteps]

lemma runSteps_okMap (batches : List (List Op)) :
    runSteps (batches.map Except.ok) = (batches.flatten, none) := by
  induction batches with
  | nil => rfl
  | cons b rest ih => simp [runSteps, ih]

lemma runSteps_flatMap_ok (f : Nat → List BuildStep) (g : Nat → List (List Op)) (l : List Nat)
    (h : ∀ i ∈ l, f i = (g i).map Except.ok) :
    runSteps (l.flatMap f) = (l.flatMap fun i => (g i).flatten, none) := by
  induction l with
  | nil => rfl
  | cons i rest ih =>
    have hok : (runSteps ((g i).map Except.ok)).2 = none := by
      rw [runSteps_okMap]
    rw [List.flatMap_cons, h i (List.mem_cons_self i rest),
      runSteps_append_ok _ _ hok, runSteps_okMap,
      ih (fun j hj => h j (List.mem_cons_of_mem _ hj)), List.flatMap_cons]

lemma flatten_map_singleton (l : List Op) : (l.map (fun op => [op])).flatten = l := by
  induction l <;> simp_all

lemma negIterSteps_eq (cfg : ALUConfig) (i : Nat) (hi : i < cfg.wB)
    (hsb : 0 < cfg.wSB) (hanc : 0 < cfg.wAnc) :
    negIterSteps cfg i =
      (negChunk (bBase cfg + i) (sbBase cfg) (ancBase cfg)).map
        (fun op => Except.ok [op]) := by
  simp [negIterSteps, step2, resetStep, getB, getSB, getAnc, regGet, hi, hsb, hanc, negChunk]

lemma negStageResult_eq (cfg : ALUConfig) (hsb : 0 < cfg.wSB) (hanc : 0 < cfg.wAnc) :
    negStageResult cfg =
      (negStageFor ((List.range cfg.wB).map (fun i => bBase cfg + i))
        (sbBase cfg) (ancBase cfg), none) := by
  unfold negStageResult
  rw [runSteps_flatMap_ok (negIterSteps cfg)
    (fun i => (negChunk (bBase cfg + i) (sbBase cfg) (ancBase cfg)).map (fun op => [op]))
    _ (fun i hi => by
      rw [negIterSteps_eq cfg i (List.mem_range.mp hi) hsb hanc, List.map_map]
      rfl)]
  unfold negStageFor
  rw [List.flatMap_map]
  simp only [flatten_map_singleton]

lemma sbBase_std (N : Nat) : sbBase (stdCfg N) = 3*N := by
  simp only [sbBase, stdCfg_wA, stdCfg_wB, stdCfg_wS]
  omega

lemma ancBase_std (N : Nat) : ancBase (stdCfg N) = 4*N+1 := by
  simp only [ancBase, stdCfg_wA, stdCfg_wB, stdCfg_wS, stdCfg_wSB, stdCfg_wC]
  omega

lemma cBase_std (N : Nat) : cBase (stdCfg N) = 3*N+1 := by
  simp only [cBase, stdCfg_wA, stdCfg_wB, stdCfg_wS, stdCfg_wSB]
  omega

lemma negStageResult_std (N : Nat) : negStageResult (stdCfg N) = (stdNegOps N, none) := by
  rw [negStageResult_eq (stdCfg N) (by simp [stdCfg_wSB]) (by simp [stdCfg_wAnc])]
  unfold stdNegOps
  simp only [sbBase_std, ancBase_std, stdCfg_wB]
  rfl

lemma getA_std (N j : Nat) (hj : j < N) : getA (stdCfg N) j = Except.ok j := by
  simp [getA, regGet, stdCfg_wA, hj]

lemma getB_std (N j : Nat) (hj : j < N) : getB (stdCfg N) j = Except.ok (N+j) := by
  simp [getB, regGet, bBase, stdCfg_wA, stdCfg_wB, hj]

lemma getS_std (N j : Nat) (hj : j < N) : getS (stdCfg N) j = Except.ok (2*N+j) := by
  simp [getS, regGet, sBase, stdCfg_wA, stdCfg_wB, stdCfg_wS, hj]
  omega

lemma getC_std (N j : Nat) (hj : j < N) : getC (stdCfg N) j = Except.ok (3*N+1+j) := by
  simp [getC, regGet, cBase_std, stdCfg_wC, hj]

lemma getAnc_std (N j : Nat) (hj : j < 3) : getAnc (stdCfg N) j = Except.ok (4*N+1+j) := by
  simp [getAnc, regGet, ancBase_std, stdCfg_wAnc, hj]

lemma sbQubits_std (N : Nat) : sbQubits (stdCfg N) = [3*N] := by
  have h1 : List.range 1 = [0] := rfl
  simp [sbQubits, stdCfg_wSB, sbBase_std, h1]

lemma adderIterSteps_std (N i : Nat) (hi : i < N) :
    adderIterSteps (stdCfg N) i =
      [bindOps (stdAdderQubits N i) fullAdderOps,
       [Op.reset (4*N+1)], [Op.reset (4*N+2)], [Op.reset (4*N+3)]].map Except.ok := by
  have hN : 0 < N := by omega
  have hAnc0 : getAnc (stdCfg N) 0 = Except.ok (4*N+1) := by
    rw [getAnc_std N 0 (by omega)]
  have hAnc1 : getAnc (stdCfg N) 1 = Except.ok (4*N+2) := by
    rw [getAnc_std N 1 (by omega)]
  have hAnc2 : getAnc (stdCfg N) 2 = Except.ok (4*N+3) := by
    rw [getAnc_std N 2 (by omega)]
  by_cases h0 : i = 0
  · subst h0
    simp [adderIterSteps, adderStep, resolveAll, resetStep, appendGate,
      getA_std N 0 hN, getB_std N 0 hN, getC_std N 0 hN, getS_std N 0 hN,
      hAnc0, hAnc1, hAnc2, sbQubits_std, stdAdderQubits]
  · have h1 : 1 ≤ i := Nat.one_le_iff_ne_zero.mpr h0
    have hCpred : getC (stdCfg N) (i-1) = Except.ok (3*N+i) := by
      rw [getC_std N (i-1) (by omega)]
      congr 1
      omega
    simp [adderIterSteps, adderStep, resolveAll, resetStep, appendGate, h0,
      getA_std N i hi, getB_std N i hi, getC_std N i hi, getS_std N i hi,
      hCpred, hAnc0, hAnc1, hAnc2, stdAdderQubits]

lemma adderPart_std (N : Nat) :
    runSteps ((List.range N).flatMap (adderIterSteps (stdCfg N))) =
      ((List.range N).flatMap (stdAdderChunk N), none) := by
  rw [runSteps_flatMap_ok (adderIterSteps (stdCfg N))
      (fun i => [bindOps (stdAdderQubits N i) fullAdderOps,
        [Op.reset (4*N+1)], [Op.reset (4*N+2)], [Op.reset (4*N+3)]]) _
      (fun i hi => adderIterSteps_std N i (List.mem_range.mp hi))]
  simp only [List.flatten_cons, List.flatten_nil, List.append_nil, List.singleton_append,
    stdAdderChunk]
  rfl

lemma buildResult_std (N : Nat) : buildResult (stdCfg N) = (stdBuildOps N, none) := by
  have hneg : runSteps ((List.range N).flatMap (negIterSteps (stdCfg N))) =
      (stdNegOps N, none) := negStageResult_std N
  unfold buildResult buildSteps
  rw [show checkStep (stdCfg N) = Except.ok [] from rfl, runSteps_ok_cons]
  simp only [stdCfg_wA, stdCfg_wB]
  rw [runSteps_append_ok _ _ (by rw [hneg]), hneg, adderPart_std]
  simp [stdBuildOps]

lemma negChunk_writes (bw sb anc0 w : Nat) (hbw : w ≠ bw) (hanc : w ≠ anc0) :
    ∀ op ∈ negChunk bw sb anc0, opWrites op w = false := by
  intro op hop
  simp only [negChunk, List.mem_cons, List.not_mem_nil, or_false] at hop
  rcases hop with h | h | h | h <;> subst h <;> simp [opWrites, hbw, hanc]

lemma bindOps_fullAdder_writes (qs : List Nat) (w : Nat)
    (h3 : w ≠ qs.getD 3 0) (h4 : w ≠ qs.getD 4 0) (h5 : w ≠ qs.getD 5 0)
    (h6 : w ≠ qs.getD 6 0) (h7 : w ≠ qs.getD 7 0) :
    ∀ op ∈ bindOps qs fullAdderOps, opWrites op w = false := by
  intro op hop
  simp only [List.getD_eq_getElem?_getD] at h3 h4 h5 h6 h7
  simp only [bindOps, fullAdderOps, List.map_cons, List.map_nil, mapOpWires,
    List.mem_cons, List.not_mem_nil, or_false] at hop
  rcases hop with h | h | h | h | h | h | h | h | h <;> subst h <;>
    simp [opWrites, h3, h4, h5, h6, h7]

lemma stdBuildOps_writes (N w : Nat) (hw : w < N ∨ w = 3*N) :
    ∀ op ∈ stdBuildOps N, opWrites op w = false := by
  intro op hop
  rcases List.mem_append.mp hop with h | h
  · unfold stdNegOps negStageFor at h
    rcases List.mem_flatMap.mp h with ⟨bw, hbw, hop2⟩
    rcases List.mem_map.mp hbw with ⟨i, hi, heq⟩
    have hiN := List.mem_range.mp hi
    have hbw2 : bw = N + i := by simpa using heq.symm
    subst hbw2
    exact negChunk_writes _ _ _ w (by omega) (by omega) op hop2
  · rcases List.mem_flatMap.mp h with ⟨i, hi, hop2⟩
    have hiN := List.mem_range.mp hi
    rcases List.mem_append.mp hop2 with h2 | h2
    · refine bindOps_fullAdder_writes (stdAdderQubits N i) w ?_ ?_ ?_ ?_ ?_ op h2 <;>
        simp [stdAdderQubits] <;> omega
    · simp only [List.mem_cons, List.not_mem_nil, or_false] at h2
      rcases h2 with h3 | h3 | h3 <;> subst h3 <;> simp [opWrites] <;> omega

lemma badAncCfg_wA (N : Nat) : (badAncCfg N).wA = N := rfl

lemma badAncCfg_wB (N : Nat) : (badAncCfg N).wB = N := rfl

lemma badAncCfg_wSB (N : Nat) : (badAncCfg N).wSB = 1 := rfl

lemma badAncCfg_wAnc (N : Nat) : (badAncCfg N).wAnc = 2 := rfl

lemma negStageFor_length (bs : List Nat) (sb anc0 : Nat) :
    (negStageFor bs sb anc0).length = 4 * bs.length := by
  induction bs with
  | nil => rfl
  | cons b rest ih =>
    unfold negStageFor at ih ⊢
    rw [List.flatMap_cons, List.length_append, ih]
    simp [negChunk]
    omega

lemma adderStep_badAnc (M : Nat) :
    adderStep (badAncCfg (M+1)) 0 = Except.error BuildError.circuitError := by
  simp [adderStep, resolveAll, getA, getB, getC, getS, getAnc, regGet,
    bBase, cBase, sBase, ancBase, badAncCfg, Nat.succ_pos]

lemma buildResult_badAnc (M : Nat) :
    buildResult (badAncCfg (M+1)) =
      ((negStageResult (badAncCfg (M+1))).1, some BuildError.circuitError) := by
  have hneg2 : (negStageResult (badAncCfg (M+1))).2 = none := by
    rw [negStageResult_eq (badAncCfg (M+1)) (by rw [badAncCfg_wSB]; omega) (by rw [badAncCfg_wAnc]; omega)]
  have hfail := adderStep_badAnc M
  have hadder : (List.range ((badAncCfg (M+1)).wA)).flatMap
      (adderIterSteps (badAncCfg (M+1))) =
      Except.error BuildError.circuitError ::
        ([resetStep (getAnc (badAncCfg (M+1)) 0), resetStep (getAnc (badAncCfg (M+1)) 1),
          resetStep (getAnc (badAncCfg (M+1)) 2)] ++
          ((List.range M).map Nat.succ).flatMap (adderIterSteps (badAncCfg (M+1)))) := by
    rw [show (badAncCfg (M+1)).wA = M+1 from rfl, List.range_succ_eq_map, List.flatMap_cons]
    rw [show adderIterSteps (badAncCfg (M+1)) 0 =
      [adderStep (badAncCfg (M+1)) 0, resetStep (getAnc (badAncCfg (M+1)) 0),
       resetStep (getAnc (badAncCfg (M+1)) 1), resetStep (getAnc (badAncCfg (M+1)) 2)] from rfl]
    rw [hfail]
    rfl
  unfold buildResult buildSteps
  rw [show checkStep (badAncCfg (M+1)) = Except.ok [] from rfl, runSteps_ok_cons, hadder,
    runSteps_stops_at_error _ _ _ hneg2]
  rfl

lemma negStage_badAnc_len (N : Nat) : (negStageResult (badAncCfg N)).1.length = 4*N := by
  rw [negStageResult_eq (badAncCfg N) (by rw [badAncCfg_wSB]; omega) (by rw [badAncCfg_wAnc]; omega)]
  simp [negStageFor_length, badAncCfg_wB]

/-- C1: for every a, b, cin ∈ {0,1}, executing the operation sequence of
`FullAdder._define` on its 8 wires, with the three scratch wires (as well as
the sum and carry-out wires) in state 0 on entry, yields
sum = a XOR b XOR cin and cout = majority(a, b, cin). -/
theorem fullAdder_correct (a b cin : Bool) :
    getW (execOps [a, b, cin, false, false, false, false, false] fullAdderOps) 4
      = xor a (xor b cin) ∧
    getW (execOps [a, b, cin, false, false, false, false, false] fullAdderOps) 3
      = majority a b cin := by
  cases a <;> cases b <;> cases cin <;> exact ⟨rfl, rfl⟩

/-- C5: `HalfAdder._define` appends exactly the three operations
`cx a sum; cx b sum; ccx a b carry`, and for every a, b ∈ {0,1}, executing
them with the sum and carry wires 0 on entry yields sum = a XOR b and
carry = a AND b, with every other wire unchanged. -/
theorem halfAdder_correct (a b : Bool) :
    halfAdderOps = [Op.cx 0 2, Op.cx 1 2, Op.ccx 0 1 3] ∧
    getW (execOps [a, b, false, false] halfAdderOps) 2 = xor a b ∧
    getW (execOps [a, b, false, false] halfAdderOps) 3 = (a && b) ∧
    ∀ w, w ≠ 2 → w ≠ 3 →
      getW (execOps [a, b, false, false] halfAdderOps) w = getW [a, b, false, false] w := by
  refine ⟨rfl, ?_, ?_, ?_⟩
  · cases a <;> cases b <;> rfl
  · cases a <;> cases b <;> rfl
  · intro w h2 h3
    rcases Nat.lt_or_ge w 4 with h | h
    · interval_cases w
      · rfl
      · rfl
      · exact absurd rfl h2
      · exact absurd rfl h3
    · obtain ⟨n, rfl⟩ : ∃ n, w = n + 4 := ⟨w - 4, by omega⟩
      rfl

/-- Witness for `halfAdder_correct` at a = true, b = true, w = 5. -/
theorem halfAdder_correct_witness :
    getW (execOps [true, true, false, false] halfAdderOps) 5 =
      getW [true, true, false, false] 5 :=
  (halfAdder_correct true true).2.2.2 5 (by decide) (by decide)

/-- C10: `FullAdder._define` appends no reset operation, and with the three
scratch wires 0 on entry its operation sequence leaves
scratch1 = a XOR b, scratch2 = a AND b and scratch3 = cin AND (a XOR b). -/
theorem fullAdder_scratch (a b cin : Bool) :
    fullAdderOps.all (fun op => !opIsReset op) = true ∧
    getW (execOps [a, b, cin, false, false, false, false, false] fullAdderOps) 5
      = xor a b ∧
    getW (execOps [a, b, cin, false, false, false, false, false] fullAdderOps) 6
      = (a && b) ∧
    getW (execOps [a, b, cin, false, false, false, false, false] fullAdderOps) 7
      = (cin && xor a b) := by
  cases a <;> cases b <;> cases cin <;> exact ⟨rfl, rfl, rfl, rfl⟩

/-- C7: instantiating the HalfAdder gate on a number of wires other than 4, or
the FullAdder gate on a number of wires other than 8, fails with
ConfigurationError. -/
theorem gateArity_configurationError (qsH qsF : List Nat)
    (hH : qsH.length ≠ 4) (hF : qsF.length ≠ 8) :
    instantiateGate 4 halfAdderOps qsH = Except.error BuildError.configurationError ∧
    instantiateGate 8 fullAdderOps qsF = Except.error BuildError.configurationError := by
  constructor
  · simp [instantiateGate, hH]
  · simp [instantiateGate, hF]

/-- Witness for `gateArity_configurationError` with empty wire lists. -/
theorem gateArity_configurationError_witness :
    instantiateGate 4 halfAdderOps [] = Except.error BuildError.configurationError ∧
    instantiateGate 8 fullAdderOps [] = Except.error BuildError.configurationError :=
  gateArity_configurationError [] [] (by decide) (by decide)

/-- C4: for every width W, every B value and every SB value (held in a state of
the standard W-bit layout whose shared scratch wire `4W+1` is 0 on entry),
the conditional-negate stage builds without error and executing it maps each
B wire `W+i` to its XOR with the SB wire `3W`, leaves SB unchanged, and leaves
the shared scratch wire 0. -/
theorem negStage_negates (W : Nat) (st : QState) (hlen : st.length = 4*W+4)
    (h0 : getW st (4*W+1) = false) :
    (negStageResult (stdCfg W)).2 = none ∧
    (∀ i, i < W → getW (execOps st (negStageResult (stdCfg W)).1) (W+i)
        = xor (getW st (W+i)) (getW st (3*W))) ∧
    getW (execOps st (negStageResult (stdCfg W)).1) (3*W) = getW st (3*W) ∧
    getW (execOps st (negStageResult (stdCfg W)).1) (4*W+1) = false := by
  have hres := negStageResult_std W
  have hops : (negStageResult (stdCfg W)).1 =
      negStageFor ((List.range W).map (fun i => W + i)) (3*W) (4*W+1) := by
    rw [hres]
    rfl
  have h2none : (negStageResult (stdCfg W)).2 = none := by rw [hres]
  have hmaster := negStageFor_exec (3*W) (4*W+1) ((List.range W).map (fun i => W + i)) st
    (by
      intro bw hbw
      rcases List.mem_map.mp hbw with ⟨i, hi, heq⟩
      have hiW := List.mem_range.mp hi
      have hbw2 : bw = W + i := by simpa using heq.symm
      subst hbw2
      refine ⟨by omega, by omega, by omega⟩)
    ((List.nodup_range W).map (fun a b h => by omega))
    (by omega) (by omega) h0
  rw [hops]
  refine ⟨h2none, ?_, ?_, hmaster.2.2.2⟩
  · intro i hi
    exact hmaster.2.2.1 (W+i) (List.mem_map.mpr ⟨i, List.mem_range.mpr hi, rfl⟩)
  · refine hmaster.2.1 (3*W) ?_ (by omega)
    intro hmem
    rcases List.mem_map.mp hmem with ⟨i, hi, heq⟩
    have hiW := List.mem_range.mp hi
    have h3W : 3*W = W + i := by simpa using heq.symm
    omega

/-- Witness for `negStage_negates` at W = 2 with B = (1,1), SB = 1. -/
theorem negStage_negates_witness :
    getW (execOps [true, false, true, true, false, false, true, false, false, false, false, false]
      (negStageResult (stdCfg 2)).1) (2+0) =
      xor (getW [true, false, true, true, false, false, true, false, false, false, false, false]
        (2+0))
        (getW [true, false, true, true, false, false, true, false, false, false, false, false]
          (3*2)) :=
  (negStage_negates 2
    [true, false, true, true, false, false, true, false, false, false, false, false]
    (by decide) (by decide)).2.1 0 (by decide)

/-- C6: running the conditional-negate stage twice in succession (same SB wire)
restores every B wire to its original value, and the shared scratch wire is 0
after each of the two runs. -/
theorem negStage_involutive (W : Nat) (st : QState) (hlen : st.length = 4*W+4)
    (h0 : getW st (4*W+1) = false) :
    (∀ i, i < W →
      getW (execOps (execOps st (negStageResult (stdCfg W)).1)
        (negStageResult (stdCfg W)).1) (W+i) = getW st (W+i)) ∧
    getW (execOps st (negStageResult (stdCfg W)).1) (4*W+1) = false ∧
    getW (execOps (execOps st (negStageResult (stdCfg W)).1)
      (negStageResult (stdCfg W)).1) (4*W+1) = false := by
  have hops : (negStageResult (stdCfg W)).1 =
      negStageFor ((List.range W).map (fun i => W + i)) (3*W) (4*W+1) := by
    rw [negStageResult_std W]
    rfl
  have hbs1 : ∀ bw ∈ (List.range W).map (fun i => W + i),
      bw < st.length ∧ bw ≠ 4*W+1 ∧ bw ≠ 3*W := by
    intro bw hbw
    rcases List.mem_map.mp hbw with ⟨i, hi, heq⟩
    have hiW := List.mem_range.mp hi
    have hbw2 : bw = W + i := by simpa using heq.symm
    subst hbw2
    exact ⟨by omega, by omega, by omega⟩
  have hnd : ((List.range W).map (fun i => W + i)).Nodup :=
    (List.nodup_range W).map (fun a b h => by omega)
  have hm1 := negStageFor_exec (3*W) (4*W+1) ((List.range W).map (fun i => W + i)) st
    hbs1 hnd (by omega) (by omega) h0
  have hlen1 : (execOps st (negStageFor ((List.range W).map (fun i => W + i))
      (3*W) (4*W+1))).length = st.length := hm1.1
  have hm2 := negStageFor_exec (3*W) (4*W+1) ((List.range W).map (fun i => W + i))
    (execOps st (negStageFor ((List.range W).map (fun i => W + i)) (3*W) (4*W+1)))
    (by
      intro bw hbw
      obtain ⟨hb1, hb2, hb3⟩ := hbs1 bw hbw
      exact ⟨hlen1 ▸ hb1, hb2, hb3⟩)
    hnd (by rw [hlen1]; omega) (by omega) hm1.2.2.2
  have hsbnot : (3*W) ∉ (List.range W).map (fun i => W + i) := by
    intro hmem
    rcases List.mem_map.mp hmem with ⟨i, hi, heq⟩
    have hiW := List.mem_range.mp hi
    have h3W : 3*W = W + i := by simpa using heq.symm
    omega
  have hsb1 : getW (execOps st (negStageFor ((List.range W).map (fun i => W + i))
      (3*W) (4*W+1))) (3*W) = getW st (3*W) :=
    hm1.2.1 (3*W) hsbnot (by omega)
  rw [hops]
  refine ⟨?_, hm1.2.2.2, hm2.2.2.2⟩
  intro i hi
  have hmem : W + i ∈ (List.range W).map (fun i => W + i) :=
    List.mem_map.mpr ⟨i, List.mem_range.mpr hi, rfl⟩
  rw [hm2.2.2.1 (W+i) hmem, hm1.2.2.1 (W+i) hmem, hsb1,
    Bool.xor_assoc, Bool.xor_self, Bool.xor_false]

/-- Witness for `negStage_involutive` at W = 2 with B = (1,1), SB = 1. -/
theorem negStage_involutive_witness :
    getW (execOps (execOps
      [true, false, true, true, false, false, true, false, false, false, false, false]
      (negStageResult (stdCfg 2)).1) (negStageResult (stdCfg 2)).1) (2+0) =
    getW [true, false, true, true, false, false, true, false, false, false, false, false]
      (2+0) :=
  (negStage_involutive 2
    [true, false, true, true, false, false, true, false, false, false, false, false]
    (by decide) (by decide)).1 0 (by decide)

/-- C9: for every width N and every initial basis state, executing the full
program built by the N-bit ALU leaves the SB wire `3N` and every A wire
`w < N` unchanged, and indeed no operation of the program writes (inverts,
swaps or resets) any of those wires — they are used only as controls. -/
theorem alu_preserves_A_and_SB (N : Nat) (st : QState) (w : Nat)
    (hw : w < N ∨ w = 3*N) :
    getW (execOps st (buildResult (stdCfg N)).1) w = getW st w ∧
    ∀ op ∈ (buildResult (stdCfg N)).1, opWrites op w = false := by
  have hops : (buildResult (stdCfg N)).1 = stdBuildOps N := by rw [buildResult_std]
  rw [hops]
  have hwr := stdBuildOps_writes N w hw
  exact ⟨execOps_not_writes w _ st hwr, hwr⟩

/-- Witness for `alu_preserves_A_and_SB` at N = 2, wire A[0]. -/
theorem alu_preserves_A_and_SB_witness :
    getW (execOps [true, false, true, true, false, false, true, false, false, false, false, false]
      (buildResult (stdCfg 2)).1) 0 =
    getW [true, false, true, true, false, false, true, false, false, false, false, false] 0 :=
  (alu_preserves_A_and_SB 2
    [true, false, true, true, false, false, true, false, false, false, false, false]
    0 (Or.inl (by decide))).1

/-- C2 counterexample: with A, B, S, C of width 3, SB of width 1 and ancilla of
width 2 (inconsistent widths), construction does not fail with
ConfigurationError raised eagerly: the configuration check passes, twelve
operations are appended, and the build then aborts with the register-index
CircuitError inside the first full-adder stage. -/
theorem widthCheck_counterexample :
    checkConfiguration (some (badAncCfg 3).wA) = Except.ok () ∧
    (buildResult (badAncCfg 3)).2 = some BuildError.circuitError ∧
    (buildResult (badAncCfg 3)).2 ≠ some BuildError.configurationError ∧
    (buildResult (badAncCfg 3)).1.length = 12 := by
  refine ⟨rfl, ?_, ?_, ?_⟩ <;> decide

/-- C2 amended: constructing the N-bit ALU performs no width-consistency
validation: `_check_configuration` succeeds whenever the main register width is
set, and an ancilla register of width 2 instead fails during `_build`, after
the conditional-negate stage's 4N operations have been appended, with the
register-index CircuitError — never with ConfigurationError. -/
theorem alu_no_eager_width_check (N : Nat) (hN : 1 ≤ N) :
    checkConfiguration (some (badAncCfg N).wA) = Except.ok () ∧
    (buildResult (badAncCfg N)).2 = some BuildError.circuitError ∧
    (buildResult (badAncCfg N)).2 ≠ some BuildError.configurationError ∧
    (buildResult (badAncCfg N)).1.length = 4*N := by
  obtain ⟨M, rfl⟩ : ∃ M, N = M + 1 := ⟨N - 1, by omega⟩
  have hb := buildResult_badAnc M
  refine ⟨rfl, by rw [hb], by rw [hb]; simp, ?_⟩
  rw [hb]
  exact negStage_badAnc_len (M+1)

/-- Witness for `alu_no_eager_width_check` at N = 3. -/
theorem alu_no_eager_width_check_witness :
    checkConfiguration (some (badAncCfg 3).wA) = Except.ok () ∧
    (buildResult (badAncCfg 3)).2 = some BuildError.circuitError ∧
    (buildResult (badAncCfg 3)).2 ≠ some BuildError.configurationError ∧
    (buildResult (badAncCfg 3)).1.length = 4*3 :=
  alu_no_eager_width_check 3 (by decide)

/-- C8 counterexample: construction is not all-or-nothing — with ancilla width
2 the build fails, yet the operations appended before the failure remain. -/
theorem allOrNothing_counterexample :
    (buildResult (badAncCfg 3)).2.isSome = true ∧
    (buildResult (badAncCfg 3)).1 ≠ [] := by decide

/-- C8 amended: a failed construction leaves the operations appended before the
failure point visible: for widths (3, 3, 3, 1, 3, 2) the build fails with
CircuitError while exactly the twelve conditional-negate operations remain
appended. -/
theorem partial_build_on_failure :
    (buildResult (badAncCfg 3)).2 = some BuildError.circuitError ∧
    (buildResult (badAncCfg 3)).1 = (negStageResult (badAncCfg 3)).1 ∧
    (buildResult (badAncCfg 3)).1.length = 12 := by decide

/-- C3 counterexample: for the 3-bit ALU with A = 001, B = 001, SB = 1 and all
other wires 0, the program does not yield S = 111 with C[2] = 0: wire 6 (S[0])
ends false and wire 12 (C[2]) ends true. -/
theorem alu3_sb1_counterexample :
    ¬ (getW (execOps
        [true, false, false, true, false, false, false, false, false, true,
         false, false, false, false, false, false] (buildResult (stdCfg 3)).1) 6 = true ∧
       getW (execOps
        [true, false, false, true, false, false, false, false, false, true,
         false, false, false, false, false, false] (buildResult (stdCfg 3)).1) 7 = true ∧
       getW (execOps
        [true, false, false, true, false, false, false, false, false, true,
         false, false, false, false, false, false] (buildResult (stdCfg 3)).1) 8 = true ∧
       getW (execOps
        [true, false, false, true, false, false, false, false, false, true,
         false, false, false, false, false, false] (buildResult (stdCfg 3)).1) 12 = false) := by
  decide

/-- C3 amended: for the 3-bit ALU with A = 001, B = 001 and all other wires 0:
with SB = 0 the result registers hold S = 010 and C[2] = 0; with SB = 1, B is
negated bit-wise to B' = 110, but SB also serves as the bit-0 carry-in, so the
result is S = (001 + 110 + 1) mod 8 = 000 with final carry C[2] = 1. -/
theorem alu3_worked_examples :
    (getW (execOps
        [true, false, false, true, false, false, false, false, false, false,
         false, false, false, false, false, false] (buildResult (stdCfg 3)).1) 6 = false ∧
     getW (execOps
        [true, false, false, true, false, false, false, false, false, false,
         false, false, false, false, false, false] (buildResult (stdCfg 3)).1) 7 = true ∧
     getW (execOps
        [true, false, false, true, false, false, false, false, false, false,
         false, false, false, false, false, false] (buildResult (stdCfg 3)).1) 8 = false ∧
     getW (execOps
        [true, false, false, true, false, false, false, false, false, false,
         false, false, false, false, false, false] (buildResult (stdCfg 3)).1) 12 = false) ∧
    (getW (execOps
        [true, false, false, true, false, false, false, false, false, true,
         false, false, false, false, false, false] (buildResult (stdCfg 3)).1) 3 = false ∧
     getW (execOps
        [true, false, false, true, false, false, false, false, false, true,
         false, false, false, false, false, false] (buildResult (stdCfg 3)).1) 4 = true ∧
     getW (execOps
        [true, false, false, true, false, false, false, false, false, true,
         false, false, false, false, false, false] (buildResult (stdCfg 3)).1) 5 = true ∧
     getW (execOps
        [true, false, false, true, false, false, false, false, false, true,
         false, false, false, false, false, false] (buildResult (stdCfg 3)).1) 6 = false ∧
     getW (execOps
        [true, false, false, true, false, false, false, false, false, true,
         false, false, false, false, false, false] (buildResult (stdCfg 3)).1) 7 = false ∧
     getW (execOps
        [true, false, false, true, false, false, false, false, false, true,
         false, false, false, false, false, false] (buildResult (stdCfg 3)).1) 8 = false ∧
     getW (execOps
        [true, false, false, true, false, false, false, false, false, true,
         false, false, false, false, false, false] (buildResult (stdCfg 3)).1) 12 = true) := by
  decide

end ALUModel
